import Mathlib

/-!
Verification development for the reservoir pedigree diagram renderer.

The definitions below are a shallow embedding of the layout-and-rendering
engine in `src/web/src/App.tsx` (component `ReservoirGraph`) and of the data
model in the `reservoirData` module. JavaScript numbers are modelled as
rationals; the DOM text-measurement capability (`getComputedTextLength`) is
an injected function parameter; the D3 zoom transform is modelled as an
explicit record with the scale clamping that `scaleExtent` performs.
-/

/-- Node categories of the graph data model (`INode.type` in the source). -/
inductive NodeType where
  | main_reservoir
  | inflow
  | outflow
  | project
deriving DecidableEq, Repr

/-- Graph node record (`INode`): id, label, category, and the optional fixed
position fields `fx`, `fy` that the layout pass assigns. -/
structure INode where
  id : String
  label : String
  type : NodeType
  fx : Option ℚ := none
  fy : Option ℚ := none
deriving DecidableEq, Repr

/-- Graph link record (`ILink`): source and target node ids. -/
structure ILink where
  source : String
  target : String
deriving DecidableEq, Repr

/-- Caller-owned graph (`IGraphData`). -/
structure GraphData where
  nodes : List INode
  links : List ILink
deriving DecidableEq, Repr

namespace LAYOUT

/-- Vertical spacing between stacked satellite nodes. -/
def NODE_SPACING : ℚ := 40
/-- Horizontal distance from the hub column to the satellite columns. -/
def HORIZONTAL_SPACING : ℚ := 220
/-- Padding added around the content when computing the viewBox. -/
def PADDING : ℚ := 100
/-- Width of the hub (main reservoir) rounded rectangle. -/
def MAIN_RECT_WIDTH : ℚ := 180
/-- Height of the hub rounded rectangle. -/
def MAIN_RECT_HEIGHT : ℚ := 80
/-- Inner padding of the hub rectangle around its text. -/
def MAIN_RECT_PADDING : ℚ := 10

end LAYOUT

namespace ZOOM

/-- Lower bound of the zoom scale extent. -/
def MIN_SCALE : ℚ := 1/2
/-- Upper bound of the zoom scale extent. -/
def MAX_SCALE : ℚ := 3
/-- Scale installed when the component mounts. -/
def INITIAL_SCALE : ℚ := 4/5
/-- Factor applied by the zoom-in button. -/
def ZOOM_IN_FACTOR : ℚ := 13/10
/-- Factor applied by the zoom-out button. -/
def ZOOM_OUT_FACTOR : ℚ := 7/10

end ZOOM

/-- The D3 zoom transform: scale `k` and translation `x`, `y`. -/
structure Transform where
  k : ℚ
  x : ℚ
  y : ℚ
deriving DecidableEq, Repr

/-- The D3 identity transform (`d3.zoomIdentity`): scale 1, zero translation. -/
def zoomIdentity : Transform := ⟨1, 0, 0⟩

/-- Clamping performed by the zoom behaviour's
`scaleExtent([ZOOM.MIN_SCALE, ZOOM.MAX_SCALE])` when scaling. -/
def clampScale (s : ℚ) : ℚ := max ZOOM.MIN_SCALE (min ZOOM.MAX_SCALE s)

/-- D3 `zoom.scaleBy`: multiplies the current scale by `f`, clamps it to the
scale extent, and adjusts the translation so that the anchor point `c`
(the viewport centre for button-driven zooms) stays fixed on screen. -/
def scaleBy (c : ℚ × ℚ) (t : Transform) (f : ℚ) : Transform :=
  let k2 := clampScale (t.k * f)
  ⟨k2, c.1 - (c.1 - t.x) * (k2 / t.k), c.2 - (c.2 - t.y) * (k2 / t.k)⟩

/-- The zoom-in button handler: `scaleBy` with `ZOOM.ZOOM_IN_FACTOR`. -/
def handleZoomIn (c : ℚ × ℚ) (t : Transform) : Transform :=
  scaleBy c t ZOOM.ZOOM_IN_FACTOR

/-- The zoom-out button handler: `scaleBy` with `ZOOM.ZOOM_OUT_FACTOR`. -/
def handleZoomOut (c : ℚ × ℚ) (t : Transform) : Transform :=
  scaleBy c t ZOOM.ZOOM_OUT_FACTOR

/-- The reset button handler: `zoom.transform` with `d3.zoomIdentity`,
replacing the whole transform by the identity. -/
def handleResetZoom (_t : Transform) : Transform := zoomIdentity

/-- A viewport operation triggered by one of the three buttons. -/
inductive ZoomOp where
  | zin
  | zout
  | zreset
deriving DecidableEq, Repr

/-- Apply one viewport operation to the current transform. -/
def applyOp (c : ℚ × ℚ) (t : Transform) : ZoomOp → Transform
  | .zin => handleZoomIn c t
  | .zout => handleZoomOut c t
  | .zreset => handleResetZoom t

/-- Apply a sequence of viewport operations in order. -/
def applyOps (c : ℚ × ℚ) (t : Transform) (ops : List ZoomOp) : Transform :=
  ops.foldl (applyOp c) t

/-! ## Layout engine (App.tsx lines 567-648)

The pass partitions nodes by category, assigns fixed positions column by
column, and derives the viewBox bounds.  The `forEach((node, i) => ...)`
loops over the filtered category lists are embedded as `placeColumn`. -/

/-- Content centre x used by the layout (`contentCenterX`). -/
def contentCenterX : ℚ := 0

/-- Content centre y used by the layout (`contentCenterY`). -/
def contentCenterY : ℚ := 0

/-- `nodes.filter((n) => n.type === 'inflow')`. -/
def inflowNodes (ns : List INode) : List INode :=
  ns.filter (fun n => n.type = NodeType.inflow)

/-- `nodes.filter((n) => n.type === 'outflow')`. -/
def outflowNodes (ns : List INode) : List INode :=
  ns.filter (fun n => n.type = NodeType.outflow)

/-- `nodes.filter((n) => n.type === 'project')`. -/
def projectNodes (ns : List INode) : List INode :=
  ns.filter (fun n => n.type = NodeType.project)

/-- `inflowStartY = contentCenterY - ((inflowNodes.length - 1) * NODE_SPACING) / 2`. -/
def inflowStartY (ns : List INode) : ℚ :=
  contentCenterY - (((inflowNodes ns).length : ℚ) - 1) * LAYOUT.NODE_SPACING / 2

/-- The `outflowStartY` local after the right-column branch (initial value
`contentCenterY`; when both lists are non-empty the outflow connector anchor
minus the stacked outflow height; when only outflows exist, the centred
start). -/
def outflowStartY (ns : List INode) : ℚ :=
  if 0 < (outflowNodes ns).length ∧ 0 < (projectNodes ns).length then
    (contentCenterY - LAYOUT.MAIN_RECT_HEIGHT / 4)
      - (((outflowNodes ns).length : ℚ) - 1) * LAYOUT.NODE_SPACING
  else if 0 < (outflowNodes ns).length then
    contentCenterY - (((outflowNodes ns).length : ℚ) - 1) * LAYOUT.NODE_SPACING / 2
  else contentCenterY

/-- The `projectStartY` local after the right-column branch (initial value
`contentCenterY`; when both lists are non-empty the project connector anchor;
when only projects exist, the centred start). -/
def projectStartY (ns : List INode) : ℚ :=
  if 0 < (outflowNodes ns).length ∧ 0 < (projectNodes ns).length then
    contentCenterY + LAYOUT.MAIN_RECT_HEIGHT / 4
  else if 0 < (outflowNodes ns).length then contentCenterY
  else if 0 < (projectNodes ns).length then
    contentCenterY - (((projectNodes ns).length : ℚ) - 1) * LAYOUT.NODE_SPACING / 2
  else contentCenterY

/-- `list.forEach((node, i) => { node.fx = x; node.fy = startY + i * NODE_SPACING })`,
started at index `i`. -/
def placeColumn (x startY : ℚ) : ℕ → List INode → List INode
  | _, [] => []
  | i, n :: rest =>
      { n with fx := some x, fy := some (startY + (i : ℚ) * LAYOUT.NODE_SPACING) }
        :: placeColumn x startY (i + 1) rest

/-- The inflow column after positioning (left side, vertically centred). -/
def placedInflows (ns : List INode) : List INode :=
  placeColumn (contentCenterX - LAYOUT.HORIZONTAL_SPACING) (inflowStartY ns) 0 (inflowNodes ns)

/-- The outflow column after positioning (right side). -/
def placedOutflows (ns : List INode) : List INode :=
  placeColumn (contentCenterX + LAYOUT.HORIZONTAL_SPACING) (outflowStartY ns) 0 (outflowNodes ns)

/-- The project column after positioning (right side). -/
def placedProjects (ns : List INode) : List INode :=
  placeColumn (contentCenterX + LAYOUT.HORIZONTAL_SPACING) (projectStartY ns) 0 (projectNodes ns)

/-- `minX = leftX - HORIZONTAL_SPACING - PADDING`. -/
def boundsMinX (_ns : List INode) : ℚ :=
  contentCenterX - LAYOUT.HORIZONTAL_SPACING - LAYOUT.PADDING

/-- `maxX = rightX + HORIZONTAL_SPACING + 200`. -/
def boundsMaxX (_ns : List INode) : ℚ :=
  contentCenterX + LAYOUT.HORIZONTAL_SPACING + 200

/-- `minY = Math.min(inflowStartY, outflowStartY) - PADDING`. -/
def boundsMinY (ns : List INode) : ℚ :=
  min (inflowStartY ns) (outflowStartY ns) - LAYOUT.PADDING

/-- `maxY = Math.max(inflowStartY + (inflowNodes.length - 1) * NODE_SPACING,
projectStartY + (projectNodes.length - 1) * NODE_SPACING) + PADDING`. -/
def boundsMaxY (ns : List INode) : ℚ :=
  max (inflowStartY ns + (((inflowNodes ns).length : ℚ) - 1) * LAYOUT.NODE_SPACING)
      (projectStartY ns + (((projectNodes ns).length : ℚ) - 1) * LAYOUT.NODE_SPACING)
    + LAYOUT.PADDING

/-! ## Text fitter (App.tsx lines 745-806)

`wrapText` performs the greedy word wrap over `text.split(/\s+/)`; the
surrounding `while (fontSize >= 10)` loop is `fitLoop`.  The DOM measurement
`tempText.getComputedTextLength()` is the injected `measure` parameter,
taking the candidate line and the current font size. -/

/-- State machine for the JavaScript regex split `text.split(/\s+/)`:
`inSep` records that the previous character belonged to a whitespace run
(maximal runs act as single separators), `acc` holds the reversed current
token. -/
def splitWsGo : Bool → List Char → List Char → List String
  | inSep, acc, [] => if inSep then [""] else [String.mk acc.reverse]
  | inSep, acc, c :: rest =>
      if inSep then
        if c.isWhitespace then splitWsGo true acc rest
        else splitWsGo false [c] rest
      else
        if c.isWhitespace then String.mk acc.reverse :: splitWsGo true [] rest
        else splitWsGo false (c :: acc) rest

/-- `text.split(/\s+/)` as in JavaScript: splits on maximal whitespace runs,
with an empty leading (resp. trailing) piece when the text starts (resp.
ends) with whitespace, and `[""]` for the empty string. -/
def jsSplitWs (text : String) : List String :=
  splitWsGo false [] text.toList

/-- One step of the greedy wrap over the next word: extend the current line
when the measured test line still fits or the current line is empty,
otherwise close the current line and start a new one with the word. The
state is `(currentLine, lines)`. -/
def wrapStep (measure : String → ℚ → ℚ) (maxWidth fontSize : ℚ)
    (st : String × List String) (word : String) : String × List String :=
  let testLine := if st.1 = "" then word else st.1 ++ " " ++ word
  if measure testLine fontSize > maxWidth ∧ st.1 ≠ "" then
    (word, st.2 ++ [st.1])
  else
    (testLine, st.2)

/-- `wrapText(text, maxWidth, fontSize)`: greedy word wrap, pushing the final
non-empty current line. -/
def wrapText (measure : String → ℚ → ℚ) (text : String) (maxWidth fontSize : ℚ) :
    List String :=
  let st := (jsSplitWs text).foldl (wrapStep measure maxWidth fontSize) ("", [])
  if st.1 = "" then st.2 else st.2 ++ [st.1]

/-- The `while (fontSize >= 10)` font-size search: wrap at the current size,
stop when the wrapped block height `lines.length * fontSize * 1.2` fits in
`maxHeight`, otherwise decrement the font size; on falling out of the loop
the current (decremented) font size is kept together with the lines and line
height computed at the previous size. -/
def fitLoop (measure : String → ℚ → ℚ) (label : String) (maxWidth maxHeight : ℚ) :
    ℕ → List String × ℚ → ℕ × List String × ℚ
  | 0, prev => (0, prev.1, prev.2)
  | fs + 1, prev =>
      if fs + 1 < 10 then (fs + 1, prev.1, prev.2)
      else
        let lines := wrapText measure label maxWidth ((fs + 1 : ℕ) : ℚ)
        let lineHeight := ((fs + 1 : ℕ) : ℚ) * (6/5)
        if (lines.length : ℚ) * lineHeight ≤ maxHeight then (fs + 1, lines, lineHeight)
        else fitLoop measure label maxWidth maxHeight fs (lines, lineHeight)

/-- The whole text-fitting pass for the hub label: start at font size 16 with
the initial `lines = []`, `lineHeight = 0`, and return the final
`(fontSize, lines, lineHeight)` used for rendering. -/
def fitText (measure : String → ℚ → ℚ) (label : String) (maxWidth maxHeight : ℚ) :
    ℕ × List String × ℚ :=
  fitLoop measure label maxWidth maxHeight 16 ([], 0)

/-! ## Connector router and link rendering (App.tsx lines 669-714) -/

/-- Colour entry of `COLOR_MAP`. -/
structure ColorSpec where
  fill : String
  stroke : String
  label : String
deriving DecidableEq, Repr

/-- `COLOR_MAP`, keyed by node category. -/
def COLOR_MAP : NodeType → ColorSpec
  | .main_reservoir => ⟨"#5B7FDB", "#4A6BC5", "Main Reservoir"⟩
  | .inflow => ⟨"#E88BA8", "#D67A97", "Inflows"⟩
  | .outflow => ⟨"#4DB8D8", "#3CA7C7", "Outflows"⟩
  | .project => ⟨"#4DB89A", "#3CA789", "Projects"⟩

/-- The `targetType` colour-key selection for a link: a link into the hub is
keyed by the source category (the inner inflow test is as in the source),
any other link by the target category. -/
def linkStrokeType (sty tty : NodeType) : NodeType :=
  if tty = NodeType.main_reservoir then
    (if sty = NodeType.inflow then NodeType.inflow else sty)
  else tty

/-- The stroke colour painted on a rendered link path. -/
def linkStroke (sty tty : NodeType) : String :=
  (COLOR_MAP (linkStrokeType sty tty)).stroke

/-- The four points of the right-angle connector path
`M x1,y1 L midX,y1 L midX,y2 L x2,y2`, including the hub exit-point offsets:
when the source is the hub, the start is shifted to its right edge and, for
outflow (resp. project) targets, a quarter height up (resp. down). -/
def routePoints (sty tty : NodeType) (sfx sfy tfx tfy : ℚ) : List (ℚ × ℚ) :=
  let x1 := if sty = NodeType.main_reservoir
            then sfx + LAYOUT.MAIN_RECT_WIDTH / 2 else sfx
  let y1 := if sty = NodeType.main_reservoir then
              (if tty = NodeType.outflow then sfy - LAYOUT.MAIN_RECT_HEIGHT / 4
               else if tty = NodeType.project then sfy + LAYOUT.MAIN_RECT_HEIGHT / 4
               else sfy)
            else sfy
  let midX := (x1 + tfx) / 2
  [(x1, y1), (midX, y1), (midX, tfy), (tfx, tfy)]

/-- A rendered link path: its points and stroke colour. -/
structure LinkPath where
  points : List (ℚ × ℚ)
  stroke : String
deriving DecidableEq, Repr

/-- The path appended for one resolved link (positions are read through the
non-null assertions `source.fx!` etc., modelled by `Option.getD`). -/
def mkLinkPath (s t : INode) : LinkPath :=
  ⟨routePoints s.type t.type (s.fx.getD 0) (s.fy.getD 0) (t.fx.getD 0) (t.fy.getD 0),
   linkStroke s.type t.type⟩

/-- The paths emitted for one link: resolve both endpoints with
`nodes.find((n) => n.id === ...)`; a dangling link emits nothing
(`if (!source || !target) return`). -/
def perLinkPaths (nodes : List INode) (l : ILink) : List LinkPath :=
  match nodes.find? (fun n => n.id = l.source),
        nodes.find? (fun n => n.id = l.target) with
  | some s, some t => [mkLinkPath s t]
  | _, _ => []

/-- `links.forEach(...)` appending one path per resolvable link. -/
def renderLinkPaths (nodes : List INode) (links : List ILink) : List LinkPath :=
  links.foldl (fun acc l => acc ++ perLinkPaths nodes l) []

/-! ## Object store model for the render pass copies (App.tsx lines 564-565)

`const nodes = data.nodes.map((d) => Object.create(d))` (and the same for
links) builds prototype-based shallow copies; every position write
`node.fx = ...` in the layout goes through those copies.  We model the heap
explicitly: root cells hold the caller records, copy cells hold only the
prototype index and the own `fx`/`fy` slots, and a write is addressed at
either kind of cell. -/

/-- Address of a heap cell: a caller-owned record or a per-pass copy. -/
inductive Addr where
  | root (i : ℕ)
  | copy (i : ℕ)
deriving DecidableEq, Repr

/-- The two position fields assigned by the layout. -/
inductive PosField where
  | fx
  | fy
deriving DecidableEq, Repr

/-- A prototype-based node copy: its prototype index into the root nodes and
its own (shadowing) position slots, empty at creation. -/
structure CopyCell where
  protoIdx : ℕ
  fx : Option ℚ := none
  fy : Option ℚ := none
deriving DecidableEq, Repr

/-- The heap of one render pass: caller nodes and links plus their copies
(link copies carry no writable field used by the pass, so only their
prototype indices are kept). -/
structure Store where
  rootNodes : List INode
  rootLinks : List ILink
  copyNodes : List CopyCell
  copyLinks : List ℕ
deriving DecidableEq, Repr

/-- `data.nodes.map((d) => Object.create(d))` and
`data.links.map((d) => Object.create(d))`: one fresh copy cell per record,
with empty own slots. -/
def objCreateStore (g : GraphData) : Store :=
  ⟨g.nodes, g.links,
   (List.range g.nodes.length).map (fun i => ⟨i, none, none⟩),
   List.range g.links.length⟩

/-- Set one position field of a caller node record. -/
def setPosRoot (n : INode) : PosField → ℚ → INode
  | .fx, v => { n with fx := some v }
  | .fy, v => { n with fy := some v }

/-- Set one own position slot of a copy cell. -/
def setPosCopy (c : CopyCell) : PosField → ℚ → CopyCell
  | .fx, v => { c with fx := some v }
  | .fy, v => { c with fy := some v }

/-- Write a position field at an address; a write to an absent cell is a
no-op. -/
def storeWrite (s : Store) (a : Addr) (f : PosField) (v : ℚ) : Store :=
  match a with
  | .root i =>
      match s.rootNodes.get? i with
      | some n => { s with rootNodes := s.rootNodes.set i (setPosRoot n f v) }
      | none => s
  | .copy i =>
      match s.copyNodes.get? i with
      | some c => { s with copyNodes := s.copyNodes.set i (setPosCopy c f v) }
      | none => s

/-- Read a copy cell's category through its prototype (copies never shadow
`type`). -/
def copyType (s : Store) (i : ℕ) : Option NodeType :=
  (s.copyNodes.get? i).bind (fun c => (s.rootNodes.get? c.protoIdx).map (fun n => n.type))

/-- The copy indices of one category, in heap order — the store view of
`nodes.filter((n) => n.type === ty)`. -/
def copyIdxOfType (s : Store) (ty : NodeType) : List ℕ :=
  (List.range s.copyNodes.length).filter (fun i => copyType s i = some ty)

/-- The position writes of one `forEach((node, i) => ...)` column loop, all
addressed at copy cells. -/
def colWrites (x startY : ℚ) : ℕ → List ℕ → List (Addr × PosField × ℚ)
  | _, [] => []
  | i, ci :: rest =>
      (Addr.copy ci, PosField.fx, x)
        :: (Addr.copy ci, PosField.fy, startY + (i : ℚ) * LAYOUT.NODE_SPACING)
        :: colWrites x startY (i + 1) rest

/-- Every position write issued by the layout pass, in program order: the
first hub copy, then the inflow column, then the right-hand column branch. -/
def layoutWrites (s : Store) : List (Addr × PosField × ℚ) :=
  let infl := copyIdxOfType s NodeType.inflow
  let outf := copyIdxOfType s NodeType.outflow
  let proj := copyIdxOfType s NodeType.project
  let mainW : List (Addr × PosField × ℚ) :=
    match copyIdxOfType s NodeType.main_reservoir with
    | [] => []
    | m :: _ => [(Addr.copy m, PosField.fx, contentCenterX),
                 (Addr.copy m, PosField.fy, contentCenterY)]
  let inflW := colWrites (contentCenterX - LAYOUT.HORIZONTAL_SPACING)
      (contentCenterY - ((infl.length : ℚ) - 1) * LAYOUT.NODE_SPACING / 2) 0 infl
  let rightW :=
    if 0 < outf.length ∧ 0 < proj.length then
      colWrites (contentCenterX + LAYOUT.HORIZONTAL_SPACING)
          ((contentCenterY - LAYOUT.MAIN_RECT_HEIGHT / 4)
            - ((outf.length : ℚ) - 1) * LAYOUT.NODE_SPACING) 0 outf
        ++ colWrites (contentCenterX + LAYOUT.HORIZONTAL_SPACING)
          (contentCenterY + LAYOUT.MAIN_RECT_HEIGHT / 4) 0 proj
    else if 0 < outf.length then
      colWrites (contentCenterX + LAYOUT.HORIZONTAL_SPACING)
          (contentCenterY - ((outf.length : ℚ) - 1) * LAYOUT.NODE_SPACING / 2) 0 outf
    else if 0 < proj.length then
      colWrites (contentCenterX + LAYOUT.HORIZONTAL_SPACING)
          (contentCenterY - ((proj.length : ℚ) - 1) * LAYOUT.NODE_SPACING / 2) 0 proj
    else []
  mainW ++ inflW ++ rightW

/-- Run the layout pass against the heap: execute its writes in order. -/
def runLayout (s : Store) : Store :=
  (layoutWrites s).foldl (fun st w => storeWrite st w.1 w.2.1 w.2.2) s

/-! ## Concrete instances used by counterexamples and witnesses -/

/-- A length-proportional measurement function: width grows with both the
line length and the font size (monotone in both). -/
def lenMeasure (s : String) (fs : ℚ) : ℚ := (s.length : ℚ) * fs

/-- A measurement function reporting width 200 for every line. -/
def wideMeasure (_s : String) (_fs : ℚ) : ℚ := 200

/-- Demo graph nodes: one hub, two outflows, one project. -/
def rcDemo : List INode :=
  [⟨"main", "Main", NodeType.main_reservoir, none, none⟩,
   ⟨"o1", "Out 1", NodeType.outflow, none, none⟩,
   ⟨"o2", "Out 2", NodeType.outflow, none, none⟩,
   ⟨"p1", "Proj 1", NodeType.project, none, none⟩]

/-- Demo graph nodes: one hub and six outflows, no inflows, no projects. -/
def outflowOnlyData : List INode :=
  [⟨"main", "Main", NodeType.main_reservoir, none, none⟩,
   ⟨"o1", "O1", NodeType.outflow, none, none⟩,
   ⟨"o2", "O2", NodeType.outflow, none, none⟩,
   ⟨"o3", "O3", NodeType.outflow, none, none⟩,
   ⟨"o4", "O4", NodeType.outflow, none, none⟩,
   ⟨"o5", "O5", NodeType.outflow, none, none⟩,
   ⟨"o6", "O6", NodeType.outflow, none, none⟩]

/-- The node list of the dangling-link scenario: only the hub exists. -/
def hubOnlyNodes : List INode :=
  [⟨"hub_1", "Main Reservoir", NodeType.main_reservoir, none, none⟩]

/-- The dangling link of the scenario: its source id resolves to no node. -/
def ghostLink : ILink := ⟨"ghost", "hub_1"⟩

/-! ## Helper lemmas -/

lemma placeColumn_length (x startY : ℚ) :
    ∀ (i : ℕ) (l : List INode), (placeColumn x startY i l).length = l.length := by
  intro i l
  induction l generalizing i with
  | nil => rfl
  | cons n rest ih => simp [placeColumn, ih]

lemma placeColumn_get (x startY : ℚ) :
    ∀ (l : List INode) (i j : ℕ) (h : j < (placeColumn x startY i l).length),
      ((placeColumn x startY i l).get ⟨j, h⟩).fx = some x ∧
      ((placeColumn x startY i l).get ⟨j, h⟩).fy =
        some (startY + ((i + j : ℕ) : ℚ) * LAYOUT.NODE_SPACING) := by
  intro l
  induction l with
  | nil => intro i j h; simp [placeColumn] at h
  | cons n rest ih =>
      intro i j h
      cases j with
      | zero => simp [placeColumn]
      | succ j' =>
          have h' : j' < (placeColumn x startY (i + 1) rest).length := by
            simpa [placeColumn] using h
          have := ih (i + 1) j' h'
          refine ⟨?_, ?_⟩
          · simpa [placeColumn] using this.1
          · have heq : ((i + 1 + j' : ℕ) : ℚ) = ((i + (j' + 1) : ℕ) : ℚ) := by
              push_cast; ring
            simpa [placeColumn, heq] using this.2

lemma wrapFold_invariant (Q : String → Prop) (measure : String → ℚ → ℚ)
    (maxWidth fontSize : ℚ)
    (hQfit : ∀ l, measure l fontSize ≤ maxWidth → Q l) :
    ∀ (words : List String) (st : String × List String),
      (∀ w ∈ words, Q w) →
      (∀ l ∈ st.2, Q l) →
      (st.1 = "" ∨ Q st.1) →
      (∀ l ∈ (words.foldl (wrapStep measure maxWidth fontSize) st).2, Q l) ∧
      ((words.foldl (wrapStep measure maxWidth fontSize) st).1 = "" ∨
        Q (words.foldl (wrapStep measure maxWidth fontSize) st).1) := by
  intro words
  induction words with
  | nil => intro st _ hl hc; exact ⟨hl, hc⟩
  | cons w ws ih =>
      intro st hw hl hc
      have hwQ : Q w := hw w (by simp)
      have hws : ∀ u ∈ ws, Q u := fun u hu => hw u (by simp [hu])
      simp only [List.foldl_cons]
      by_cases hcond : measure (if st.1 = "" then w else st.1 ++ " " ++ w) fontSize > maxWidth ∧ st.1 ≠ ""
      · have hstep : wrapStep measure maxWidth fontSize st w = (w, st.2 ++ [st.1]) := by
          simp only [wrapStep]
          rw [if_pos hcond]
        rw [hstep]
        refine ih _ hws ?_ (Or.inr hwQ)
        intro l hlmem
        rcases List.mem_append.mp hlmem with hmem | hmem
        · exact hl l hmem
        · have : l = st.1 := by simpa using hmem
          subst this
          rcases hc with hce | hcq
          · exact absurd hce hcond.2
          · exact hcq
      · have hstep : wrapStep measure maxWidth fontSize st w =
            (if st.1 = "" then w else st.1 ++ " " ++ w, st.2) := by
          simp only [wrapStep]
          rw [if_neg hcond]
        rw [hstep]
        refine ih _ hws hl (Or.inr ?_)
        by_cases hemp : st.1 = ""
        · simpa [hemp] using hwQ
        · have hfit : measure (st.1 ++ " " ++ w) fontSize ≤ maxWidth := by
            by_contra hnot
            exact hcond ⟨by simpa [hemp] using lt_of_not_le hnot, hemp⟩
          simpa [hemp] using hQfit _ hfit

lemma renderLinkPaths_acc (nodes : List INode) :
    ∀ (links : List ILink) (acc : List LinkPath),
      links.foldl (fun a l => a ++ perLinkPaths nodes l) acc
        = acc ++ renderLinkPaths nodes links := by
  intro links
  induction links with
  | nil => intro acc; simp [renderLinkPaths]
  | cons l ls ih =>
      intro acc
      simp only [renderLinkPaths, List.foldl_cons, List.nil_append] at *
      rw [ih, ih (perLinkPaths nodes l), List.append_assoc]

lemma renderLinkPaths_append (nodes : List INode) (xs ys : List ILink) :
    renderLinkPaths nodes (xs ++ ys)
      = renderLinkPaths nodes xs ++ renderLinkPaths nodes ys := by
  simp only [renderLinkPaths, List.foldl_append]
  rw [renderLinkPaths_acc nodes ys (List.foldl _ [] xs), renderLinkPaths_acc nodes xs []]
  simp [renderLinkPaths]

lemma storeWrite_copy_roots (s : Store) (i : ℕ) (f : PosField) (v : ℚ) :
    (storeWrite s (Addr.copy i) f v).rootNodes = s.rootNodes ∧
    (storeWrite s (Addr.copy i) f v).rootLinks = s.rootLinks := by
  simp only [storeWrite]
  cases s.copyNodes.get? i <;> simp

lemma colWrites_addr (x startY : ℚ) :
    ∀ (i : ℕ) (cis : List ℕ) (w : Addr × PosField × ℚ),
      w ∈ colWrites x startY i cis → ∃ c, w.1 = Addr.copy c := by
  intro i cis
  induction cis generalizing i with
  | nil => intro w hw; simp [colWrites] at hw
  | cons c rest ih =>
      intro w hw
      simp only [colWrites, List.mem_cons] at hw
      rcases hw with h | h | h
      · exact ⟨c, by simp [h]⟩
      · exact ⟨c, by simp [h]⟩
      · exact ih (i + 1) w h

lemma layoutWrites_addr (s : Store) :
    ∀ w ∈ layoutWrites s, ∃ c, w.1 = Addr.copy c := by
  intro w hw
  simp only [layoutWrites, List.mem_append] at hw
  rcases hw with (hw | hw) | hw
  · rcases hm : copyIdxOfType s NodeType.main_reservoir with _ | ⟨m, rest⟩
    · rw [hm] at hw; simp at hw
    · rw [hm] at hw
      simp only [List.mem_cons] at hw
      rcases hw with h | h | h
      · exact ⟨m, by simp [h]⟩
      · exact ⟨m, by simp [h]⟩
      · simp at h
  · exact colWrites_addr _ _ _ _ w hw
  · by_cases h1 : 0 < (copyIdxOfType s NodeType.outflow).length ∧
        0 < (copyIdxOfType s NodeType.project).length
    · rw [if_pos h1] at hw
      rcases List.mem_append.mp hw with h | h
      · exact colWrites_addr _ _ _ _ w h
      · exact colWrites_addr _ _ _ _ w h
    · rw [if_neg h1] at hw
      by_cases h2 : 0 < (copyIdxOfType s NodeType.outflow).length
      · rw [if_pos h2] at hw
        exact colWrites_addr _ _ _ _ w hw
      · rw [if_neg h2] at hw
        by_cases h3 : 0 < (copyIdxOfType s NodeType.project).length
        · rw [if_pos h3] at hw
          exact colWrites_addr _ _ _ _ w hw
        · rw [if_neg h3] at hw; simp at hw

lemma foldl_copy_writes_roots :
    ∀ (ws : List (Addr × PosField × ℚ)) (s : Store),
      (∀ w ∈ ws, ∃ c, w.1 = Addr.copy c) →
      ((ws.foldl (fun st w => storeWrite st w.1 w.2.1 w.2.2) s).rootNodes = s.rootNodes ∧
       (ws.foldl (fun st w => storeWrite st w.1 w.2.1 w.2.2) s).rootLinks = s.rootLinks) := by
  intro ws
  induction ws with
  | nil => intro s _; exact ⟨rfl, rfl⟩
  | cons w rest ih =>
      intro s hall
      obtain ⟨c, hc⟩ := hall w (by simp)
      have hrest : ∀ u ∈ rest, ∃ d, u.1 = Addr.copy d := fun u hu => hall u (by simp [hu])
      simp only [List.foldl_cons]
      have hpres := storeWrite_copy_roots s c w.2.1 w.2.2
      have := ih (storeWrite s w.1 w.2.1 w.2.2) hrest
      rw [hc] at *
      exact ⟨this.1.trans hpres.1, this.2.trans hpres.2⟩

/-! ## Claims -/

/-- Claim C1 (corrected): after any sequence of viewport operations, the
reset handler replaces the transform by the D3 identity — scale 1 and zero
translation — and that scale differs from the configured initial scale
`ZOOM.INITIAL_SCALE = 0.8`; reset does not restore the initial scale. -/
theorem reset_sets_identity_transform (c : ℚ × ℚ) (t : Transform) (ops : List ZoomOp) :
    applyOps c t (ops ++ [ZoomOp.zreset]) = zoomIdentity ∧
    zoomIdentity.k = 1 ∧ zoomIdentity.x = 0 ∧ zoomIdentity.y = 0 ∧
    zoomIdentity.k ≠ ZOOM.INITIAL_SCALE := by
  refine ⟨?_, rfl, rfl, rfl, ?_⟩
  · simp [applyOps, List.foldl_append, applyOp, handleResetZoom]
  · norm_num [zoomIdentity, ZOOM.INITIAL_SCALE]

/-- Claim C1 counterexample: resetting from a concrete transform yields
scale 1, which is not the configured initial scale 0.8. -/
theorem reset_scale_ne_initial_cex :
    (handleResetZoom ⟨3, 5, 7⟩).k = 1 ∧
    (handleResetZoom ⟨3, 5, 7⟩).k ≠ ZOOM.INITIAL_SCALE := by
  refine ⟨rfl, ?_⟩
  norm_num [handleResetZoom, zoomIdentity, ZOOM.INITIAL_SCALE]

/-- Claim C10 (confirmed): when neither operation clamps, zoom-in followed by
zoom-out multiplies the scale by 1.3 * 0.7 = 0.91, which differs from the
original scale — the two buttons are not inverse operations. -/
theorem zoom_in_out_not_inverse (c : ℚ × ℚ) (t : Transform)
    (h1 : ZOOM.ZOOM_IN_FACTOR * t.k ≤ ZOOM.MAX_SCALE)
    (h2 : ZOOM.MIN_SCALE ≤ (91/100) * t.k) :
    (handleZoomOut c (handleZoomIn c t)).k = (91/100) * t.k ∧
    (handleZoomOut c (handleZoomIn c t)).k ≠ t.k := by
  have h1' : t.k * (13/10) ≤ 3 := by
    have := h1
    simp only [ZOOM.ZOOM_IN_FACTOR, ZOOM.MAX_SCALE] at this
    linarith
  have h2' : (1/2 : ℚ) ≤ (91/100) * t.k := by
    simpa [ZOOM.MIN_SCALE] using h2
  have hkpos : (0 : ℚ) < t.k := by nlinarith
  have hin : (handleZoomIn c t).k = t.k * (13/10) := by
    show clampScale (t.k * ZOOM.ZOOM_IN_FACTOR) = t.k * (13/10)
    simp only [clampScale, ZOOM.ZOOM_IN_FACTOR, ZOOM.MIN_SCALE, ZOOM.MAX_SCALE]
    rw [min_eq_right h1', max_eq_right (by linarith)]
  have hout : (handleZoomOut c (handleZoomIn c t)).k = (91/100) * t.k := by
    show clampScale ((handleZoomIn c t).k * ZOOM.ZOOM_OUT_FACTOR) = (91/100) * t.k
    rw [hin]
    simp only [clampScale, ZOOM.ZOOM_OUT_FACTOR, ZOOM.MIN_SCALE, ZOOM.MAX_SCALE]
    have hval : t.k * (13/10) * (7/10) = (91/100) * t.k := by ring
    rw [hval, min_eq_right (by linarith), max_eq_right (by linarith)]
  refine ⟨hout, ?_⟩
  rw [hout]
  intro hcontra
  nlinarith

/-- Claim C10 witness: at the concrete transform with scale 1, both
hypotheses hold and the composite scale is 0.91, different from 1. -/
theorem zoom_in_out_not_inverse_witness :
    (ZOOM.ZOOM_IN_FACTOR * (Transform.mk 1 0 0).k ≤ ZOOM.MAX_SCALE ∧
     ZOOM.MIN_SCALE ≤ (91/100) * (Transform.mk 1 0 0).k) ∧
    ((handleZoomOut (0, 0) (handleZoomIn (0, 0) ⟨1, 0, 0⟩)).k
        = (91/100) * (Transform.mk 1 0 0).k ∧
     (handleZoomOut (0, 0) (handleZoomIn (0, 0) ⟨1, 0, 0⟩)).k ≠ (Transform.mk 1 0 0).k) := by
  have hh1 : ZOOM.ZOOM_IN_FACTOR * (Transform.mk 1 0 0).k ≤ ZOOM.MAX_SCALE := by
    norm_num [ZOOM.ZOOM_IN_FACTOR, ZOOM.MAX_SCALE]
  have hh2 : ZOOM.MIN_SCALE ≤ (91/100) * (Transform.mk 1 0 0).k := by
    norm_num [ZOOM.MIN_SCALE]
  exact ⟨⟨hh1, hh2⟩, zoom_in_out_not_inverse (0, 0) ⟨1, 0, 0⟩ hh1 hh2⟩

/-- Claim C6 (confirmed): for all endpoint categories and positions the
routed connector is exactly 4 points — the (possibly hub-offset) start, then
the point at the averaged x at the start height, then the same x at the end
height, then the end — a horizontal, vertical, horizontal elbow, zero-length
segments included. -/
theorem route_points_elbow_spec (sty tty : NodeType) (sfx sfy tfx tfy : ℚ) :
    (routePoints sty tty sfx sfy tfx tfy).length = 4 ∧
    ∃ sx sy : ℚ, routePoints sty tty sfx sfy tfx tfy =
      [(sx, sy), ((sx + tfx) / 2, sy), ((sx + tfx) / 2, tfy), (tfx, tfy)] :=
  ⟨rfl, _, _, rfl⟩

/-- Claim C7 (confirmed): the stroke colour of a rendered link is the colour
of the target category, except that a link terminating at the hub takes the
colour of the source category (the inner inflow special case in the source
is the identity). -/
theorem link_stroke_policy (sty tty : NodeType) :
    linkStroke sty tty
      = (COLOR_MAP (if tty = NodeType.main_reservoir then sty else tty)).stroke := by
  cases tty <;> cases sty <;> rfl

/-- Claim C4 (code bug): with a measurement function under which no font size
from 16 down to the floor 10 fits the six-word hub label into the hub
rectangle, the fitter leaves the loop with font size 9 — below the floor —
while the lines kept were wrapped at size 10; the label is rendered at 9,
contradicting the specified floor. -/
theorem fit_text_returns_below_floor :
    fitText wideMeasure "a b c d e f"
        (LAYOUT.MAIN_RECT_WIDTH - LAYOUT.MAIN_RECT_PADDING * 2)
        (LAYOUT.MAIN_RECT_HEIGHT - LAYOUT.MAIN_RECT_PADDING * 2)
      = (9, ["a", "b", "c", "d", "e", "f"], 12) ∧
    (fitText wideMeasure "a b c d e f"
        (LAYOUT.MAIN_RECT_WIDTH - LAYOUT.MAIN_RECT_PADDING * 2)
        (LAYOUT.MAIN_RECT_HEIGHT - LAYOUT.MAIN_RECT_PADDING * 2)).1 < 10 := by
  have hc1 : (180 - 10 * 2 : ℚ) < 200 := by norm_num
  have h16 : ¬ ((6:ℚ) * (16 * (6/5)) ≤ 80 - 10 * 2) := by norm_num
  have h15 : ¬ ((6:ℚ) * (15 * (6/5)) ≤ 80 - 10 * 2) := by norm_num
  have h14 : ¬ ((6:ℚ) * (14 * (6/5)) ≤ 80 - 10 * 2) := by norm_num
  have h13 : ¬ ((6:ℚ) * (13 * (6/5)) ≤ 80 - 10 * 2) := by norm_num
  have h12 : ¬ ((6:ℚ) * (12 * (6/5)) ≤ 80 - 10 * 2) := by norm_num
  have h11 : ¬ ((6:ℚ) * (11 * (6/5)) ≤ 80 - 10 * 2) := by norm_num
  have h10 : ¬ ((6:ℚ) * (10 * (6/5)) ≤ 80 - 10 * 2) := by norm_num
  have hmain : fitText wideMeasure "a b c d e f"
      (LAYOUT.MAIN_RECT_WIDTH - LAYOUT.MAIN_RECT_PADDING * 2)
      (LAYOUT.MAIN_RECT_HEIGHT - LAYOUT.MAIN_RECT_PADDING * 2)
      = (9, ["a", "b", "c", "d", "e", "f"], 12) := by
    simp +decide [fitText, fitLoop, wrapText, wrapStep, jsSplitWs, splitWsGo, wideMeasure,
      LAYOUT.MAIN_RECT_WIDTH, LAYOUT.MAIN_RECT_HEIGHT, LAYOUT.MAIN_RECT_PADDING,
      String.toList, hc1, h16, h15, h14, h13, h12, h11, h10]
    norm_num
  exact ⟨hmain, by rw [hmain]; norm_num⟩

/-- Claim C3 (code bug): on a graph with one hub and six outflows (no
inflows, no projects) the bottom outflow is placed at y = 100 while the
computed maxY bound is 80, so a positioned node lies outside the viewBox
bounds — they are not the bounding box of all placed nodes plus padding. -/
theorem bounds_miss_outflow_bottom :
    (placedOutflows outflowOnlyData).map (fun n => n.fy)
      = [some (-100), some (-60), some (-20), some 20, some 60, some 100] ∧
    boundsMaxY outflowOnlyData = 80 ∧
    ¬ ((100 : ℚ) ≤ boundsMaxY outflowOnlyData) := by
  have h1 : (placedOutflows outflowOnlyData).map (fun n => n.fy)
      = [some (-100), some (-60), some (-20), some 20, some 60, some 100] := by
    simp +decide [placedOutflows, placeColumn, outflowStartY, outflowNodes, projectNodes,
      outflowOnlyData, contentCenterX, contentCenterY, LAYOUT.NODE_SPACING,
      LAYOUT.MAIN_RECT_HEIGHT, LAYOUT.HORIZONTAL_SPACING, List.filter] <;> norm_num
  have h2 : boundsMaxY outflowOnlyData = 80 := by
    simp +decide [boundsMaxY, inflowStartY, projectStartY, inflowNodes, outflowNodes,
      projectNodes, outflowOnlyData, contentCenterY, LAYOUT.NODE_SPACING, LAYOUT.PADDING,
      LAYOUT.MAIN_RECT_HEIGHT, List.filter] <;> norm_num
  exact ⟨h1, h2, by rw [h2]; norm_num⟩

/-- Claim C2 counterexample: with two outflows and one project, the claimed
internal centering about the anchor `-hubHeight/4` would put the first
outflow at y = -40, but the layout places it at y = -60 (the group is
anchored with its last node at the anchor, not centred about it). -/
theorem right_column_not_centered_cex :
    (placedOutflows rcDemo).map (fun n => n.fy) = [some (-60), some (-20)] ∧
    (contentCenterY - LAYOUT.MAIN_RECT_HEIGHT / 4)
        - ((2 : ℚ) - 1) * LAYOUT.NODE_SPACING / 2 + 0 * LAYOUT.NODE_SPACING = -40 ∧
    some ((-60 : ℚ)) ≠ some ((-40 : ℚ)) := by
  refine ⟨?_, ?_, by norm_num⟩
  · simp +decide [placedOutflows, placeColumn, outflowStartY, outflowNodes, projectNodes,
      rcDemo, contentCenterX, contentCenterY, LAYOUT.NODE_SPACING,
      LAYOUT.MAIN_RECT_HEIGHT, LAYOUT.HORIZONTAL_SPACING, List.filter] <;> norm_num
  · norm_num [contentCenterY, LAYOUT.MAIN_RECT_HEIGHT, LAYOUT.NODE_SPACING]

/-- Claim C2 (amended): with both right-hand lists non-empty, every outflow
and every project sits at x = +horizontalSpacing; the outflows are anchored
so that the LAST outflow lies at the anchor y = -hubHeight/4 with earlier
ones stacked above (start = anchor - (N-1)*spacing), the projects so that
the FIRST project lies at the anchor y = +hubHeight/4 with later ones
stacked below — the groups are not internally centred about the anchors —
and every outflow lies strictly above every project. -/
theorem right_column_groups_layout (ns : List INode)
    (ho : 0 < (outflowNodes ns).length) (hp : 0 < (projectNodes ns).length) :
    (∀ j (h : j < (placedOutflows ns).length),
      ((placedOutflows ns).get ⟨j, h⟩).fx
          = some (contentCenterX + LAYOUT.HORIZONTAL_SPACING) ∧
      ((placedOutflows ns).get ⟨j, h⟩).fy
          = some ((contentCenterY - LAYOUT.MAIN_RECT_HEIGHT / 4)
              - (((outflowNodes ns).length : ℚ) - 1) * LAYOUT.NODE_SPACING
              + (j : ℚ) * LAYOUT.NODE_SPACING)) ∧
    (∀ j (h : j < (placedProjects ns).length),
      ((placedProjects ns).get ⟨j, h⟩).fx
          = some (contentCenterX + LAYOUT.HORIZONTAL_SPACING) ∧
      ((placedProjects ns).get ⟨j, h⟩).fy
          = some (contentCenterY + LAYOUT.MAIN_RECT_HEIGHT / 4
              + (j : ℚ) * LAYOUT.NODE_SPACING)) ∧
    (∀ i (hi : i < (placedOutflows ns).length) (j : ℕ)
        (hj : j < (placedProjects ns).length),
      (((placedOutflows ns).get ⟨i, hi⟩).fy.getD 0)
        < (((placedProjects ns).get ⟨j, hj⟩).fy.getD 0)) := by
  have hcond : 0 < (outflowNodes ns).length ∧ 0 < (projectNodes ns).length := ⟨ho, hp⟩
  have hos : outflowStartY ns
      = (contentCenterY - LAYOUT.MAIN_RECT_HEIGHT / 4)
        - (((outflowNodes ns).length : ℚ) - 1) * LAYOUT.NODE_SPACING := by
    rw [outflowStartY, if_pos hcond]
  have hps : projectStartY ns = contentCenterY + LAYOUT.MAIN_RECT_HEIGHT / 4 := by
    rw [projectStartY, if_pos hcond]
  have houtfy : ∀ j (h : j < (placedOutflows ns).length),
      ((placedOutflows ns).get ⟨j, h⟩).fx
          = some (contentCenterX + LAYOUT.HORIZONTAL_SPACING) ∧
      ((placedOutflows ns).get ⟨j, h⟩).fy
          = some ((contentCenterY - LAYOUT.MAIN_RECT_HEIGHT / 4)
              - (((outflowNodes ns).length : ℚ) - 1) * LAYOUT.NODE_SPACING
              + (j : ℚ) * LAYOUT.NODE_SPACING) := by
    intro j h
    simp only [placedOutflows] at h ⊢
    have hg := placeColumn_get (contentCenterX + LAYOUT.HORIZONTAL_SPACING)
        (outflowStartY ns) (outflowNodes ns) 0 j h
    refine ⟨hg.1, ?_⟩
    rw [hg.2, hos]
    norm_num
  have hprofy : ∀ j (h : j < (placedProjects ns).length),
      ((placedProjects ns).get ⟨j, h⟩).fx
          = some (contentCenterX + LAYOUT.HORIZONTAL_SPACING) ∧
      ((placedProjects ns).get ⟨j, h⟩).fy
          = some (contentCenterY + LAYOUT.MAIN_RECT_HEIGHT / 4
              + (j : ℚ) * LAYOUT.NODE_SPACING) := by
    intro j h
    simp only [placedProjects] at h ⊢
    have hg := placeColumn_get (contentCenterX + LAYOUT.HORIZONTAL_SPACING)
        (projectStartY ns) (projectNodes ns) 0 j h
    refine ⟨hg.1, ?_⟩
    rw [hg.2, hps]
    norm_num
  refine ⟨houtfy, hprofy, ?_⟩
  intro i hi j hj
  rw [(houtfy i hi).2, (hprofy j hj).2]
  simp only [Option.getD_some]
  have hlen : (placedOutflows ns).length = (outflowNodes ns).length :=
    placeColumn_length _ _ _ _
  have hiq : (i : ℚ) + 1 ≤ ((outflowNodes ns).length : ℚ) := by
    exact_mod_cast Nat.succ_le_of_lt (hlen ▸ hi)
  have hjq : (0 : ℚ) ≤ (j : ℚ) := Nat.cast_nonneg j
  simp only [contentCenterY, LAYOUT.MAIN_RECT_HEIGHT, LAYOUT.NODE_SPACING]
  linarith

/-- Claim C2 witness: the amended layout statement instantiated at the demo
graph with two outflows and one project. -/
theorem right_column_groups_layout_witness :
    (0 < (outflowNodes rcDemo).length ∧ 0 < (projectNodes rcDemo).length) ∧
    ((∀ j (h : j < (placedOutflows rcDemo).length),
      ((placedOutflows rcDemo).get ⟨j, h⟩).fx
          = some (contentCenterX + LAYOUT.HORIZONTAL_SPACING) ∧
      ((placedOutflows rcDemo).get ⟨j, h⟩).fy
          = some ((contentCenterY - LAYOUT.MAIN_RECT_HEIGHT / 4)
              - (((outflowNodes rcDemo).length : ℚ) - 1) * LAYOUT.NODE_SPACING
              + (j : ℚ) * LAYOUT.NODE_SPACING)) ∧
    (∀ j (h : j < (placedProjects rcDemo).length),
      ((placedProjects rcDemo).get ⟨j, h⟩).fx
          = some (contentCenterX + LAYOUT.HORIZONTAL_SPACING) ∧
      ((placedProjects rcDemo).get ⟨j, h⟩).fy
          = some (contentCenterY + LAYOUT.MAIN_RECT_HEIGHT / 4
              + (j : ℚ) * LAYOUT.NODE_SPACING)) ∧
    (∀ i (hi : i < (placedOutflows rcDemo).length) (j : ℕ)
        (hj : j < (placedProjects rcDemo).length),
      (((placedOutflows rcDemo).get ⟨i, hi⟩).fy.getD 0)
        < (((placedProjects rcDemo).get ⟨j, hj⟩).fy.getD 0))) :=
  ⟨⟨by decide, by decide⟩, right_column_groups_layout rcDemo (by decide) (by decide)⟩

/-- Claim C5 counterexample: with the monotone length-proportional
measurement, a single 21-character word wraps to one line measuring 210 at
font size 10, exceeding maxWidth = 100 — not every produced line fits
within maxWidth. -/
theorem wrap_single_word_overflow_cex :
    wrapText lenMeasure "abcdefghijklmnopqrstu" 100 10 = ["abcdefghijklmnopqrstu"] ∧
    lenMeasure "abcdefghijklmnopqrstu" 10 = 210 ∧
    ¬ (lenMeasure "abcdefghijklmnopqrstu" 10 ≤ 100) := by
  have hlen : ("abcdefghijklmnopqrstu" : String).length = 21 := rfl
  have hm : lenMeasure "abcdefghijklmnopqrstu" 10 = 210 := by
    rw [lenMeasure, hlen]; norm_num
  refine ⟨?_, hm, by rw [hm]; norm_num⟩
  simp +decide [wrapText, wrapStep, jsSplitWs, splitWsGo, lenMeasure, String.toList]

/-- Claim C5 (amended): every line produced by the greedy wrap either has
measured width at most maxWidth at the used font size, or is a single input
word (a word that alone exceeds maxWidth is emitted on its own overflowing
line); in particular every multi-word line fits. -/
theorem wrap_lines_fit_or_single_word (measure : String → ℚ → ℚ) (text : String)
    (maxWidth fontSize : ℚ) :
    ∀ l ∈ wrapText measure text maxWidth fontSize,
      measure l fontSize ≤ maxWidth ∨ l ∈ jsSplitWs text := by
  intro l hl
  have hinv := wrapFold_invariant
      (fun u => measure u fontSize ≤ maxWidth ∨ u ∈ jsSplitWs text)
      measure maxWidth fontSize (fun u hu => Or.inl hu) (jsSplitWs text) ("", [])
      (fun w hw => Or.inr hw) (by simp) (Or.inl rfl)
  simp only [wrapText] at hl
  by_cases hemp :
      ((jsSplitWs text).foldl (wrapStep measure maxWidth fontSize) ("", [])).1 = ""
  · rw [if_pos hemp] at hl
    exact hinv.1 l hl
  · rw [if_neg hemp] at hl
    rcases List.mem_append.mp hl with h | h
    · exact hinv.1 l h
    · have hleq : l =
          ((jsSplitWs text).foldl (wrapStep measure maxWidth fontSize) ("", [])).1 := by
        simpa using h
      rcases hinv.2 with he | hq
      · exact absurd he hemp
      · rw [hleq]; exact hq

/-- Claim C5 witness: the amended statement applied to a two-word line that
fits, with the membership hypothesis discharged concretely. -/
theorem wrap_lines_fit_or_single_word_witness :
    ("ab cd" ∈ wrapText lenMeasure "ab cd" 100 10) ∧
    (lenMeasure "ab cd" 10 ≤ 100 ∨ "ab cd" ∈ jsSplitWs "ab cd") := by
  have hlen : ("ab cd" : String).length = 5 := rfl
  have hab : ("ab" : String).length = 2 := rfl
  have hw1 : ¬ (lenMeasure "ab" 10 > 100) := by rw [lenMeasure, hab]; norm_num
  have hw2 : ¬ (lenMeasure "ab cd" 10 > 100) := by rw [lenMeasure, hlen]; norm_num
  have hmem : "ab cd" ∈ wrapText lenMeasure "ab cd" 100 10 := by
    simp +decide [wrapText, wrapStep, jsSplitWs, splitWsGo, String.toList, hw1, hw2]
  exact ⟨hmem, wrap_lines_fit_or_single_word lenMeasure "ab cd" 100 10 "ab cd" hmem⟩

/-- Claim C8 (confirmed): a link whose source or target id resolves to no
node emits zero path elements, and removing such a link from the link list
leaves the rendered path list unchanged — all other links are unaffected and
nothing fails. -/
theorem dangling_link_skipped (nodes : List INode) (l : ILink) (pre post : List ILink)
    (h : nodes.find? (fun n => n.id = l.source) = none ∨
         nodes.find? (fun n => n.id = l.target) = none) :
    perLinkPaths nodes l = [] ∧
    renderLinkPaths nodes (pre ++ l :: post) = renderLinkPaths nodes (pre ++ post) := by
  have hper : perLinkPaths nodes l = [] := by
    rcases h with h | h
    · cases h2 : nodes.find? (fun n => n.id = l.target) <;>
        simp [perLinkPaths, h, h2]
    · cases h1 : nodes.find? (fun n => n.id = l.source) <;>
        simp [perLinkPaths, h, h1]
  refine ⟨hper, ?_⟩
  have hmid : renderLinkPaths nodes [l] = [] := by
    simp [renderLinkPaths, hper]
  calc renderLinkPaths nodes (pre ++ l :: post)
      = renderLinkPaths nodes (pre ++ [l] ++ post) := by simp
    _ = renderLinkPaths nodes pre ++ renderLinkPaths nodes [l]
          ++ renderLinkPaths nodes post := by
        rw [renderLinkPaths_append, renderLinkPaths_append]
    _ = renderLinkPaths nodes pre ++ renderLinkPaths nodes post := by
        rw [hmid]; simp
    _ = renderLinkPaths nodes (pre ++ post) := (renderLinkPaths_append nodes pre post).symm

/-- Claim C8 witness: the scenario link from the non-existent id "ghost" to
the hub emits no path elements and leaves rendering unchanged. -/
theorem dangling_link_skipped_witness :
    (hubOnlyNodes.find? (fun n => n.id = ghostLink.source) = none ∨
     hubOnlyNodes.find? (fun n => n.id = ghostLink.target) = none) ∧
    (perLinkPaths hubOnlyNodes ghostLink = [] ∧
     renderLinkPaths hubOnlyNodes ([] ++ ghostLink :: []) =
       renderLinkPaths hubOnlyNodes ([] ++ [])) := by
  have hsrc : hubOnlyNodes.find? (fun n => n.id = ghostLink.source) = none := by decide
  exact ⟨Or.inl hsrc,
    dangling_link_skipped hubOnlyNodes ghostLink [] [] (Or.inl hsrc)⟩

/-- Claim C9 (confirmed): the render pass only ever writes position fields at
copy-cell addresses (the `Object.create` prototype copies), so running the
layout leaves every caller-owned node and link record unchanged in the
store. -/
theorem layout_preserves_caller_graph (g : GraphData) :
    (runLayout (objCreateStore g)).rootNodes = g.nodes ∧
    (runLayout (objCreateStore g)).rootLinks = g.links ∧
    ∀ w ∈ layoutWrites (objCreateStore g), ∃ c, w.1 = Addr.copy c := by
  have hall := layoutWrites_addr (objCreateStore g)
  have hpres := foldl_copy_writes_roots (layoutWrites (objCreateStore g))
      (objCreateStore g) hall
  refine ⟨?_, ?_, hall⟩
  · calc (runLayout (objCreateStore g)).rootNodes
        = (objCreateStore g).rootNodes := hpres.1
      _ = g.nodes := rfl
  · calc (runLayout (objCreateStore g)).rootLinks
        = (objCreateStore g).rootLinks := hpres.2
      _ = g.links := rfl
